import Mathlib

/- Verification of the context-retrieval and relevance-filtering pipeline of
the PR review agent (`src/pr_agent/PR_agent.py`, `src/pr_agent/git_grep_agent.py`).

Each Python function of the pipeline is embedded as a Lean function over an
explicit model of its effects: the grep subprocess, the file system and the
`ast` parser appear as `Except`-valued inputs, and a Python `dict` is an
insertion-ordered association list. -/

set_option autoImplicit false

universe u

/-- Exceptions a Python `except` block can observe in this pipeline; the
payload is the message text. -/
inductive PyError where
  | attributeError (msg : String)
  | ioError (msg : String)
  | syntaxError (msg : String)
  | serviceError (msg : String)
  deriving Repr, DecidableEq

/-- Result of `subprocess.run(..., capture_output=True, text=True, check=False)`:
with `check=False` a non-zero exit code is not an exception, so the caller sees
stdout, stderr and the return code. -/
structure ProcOutput where
  stdout : String
  stderr : String
  returncode : Int
  deriving Repr, DecidableEq

/-- A Python `dict` with string keys, modelled as an insertion-ordered
association list: assignment of a fresh key appends at the end, exactly the
iteration order Python guarantees. -/
abbrev PyDict (α : Type u) : Type u := List (String × α)

/-- The empty dict literal. -/
def dictEmpty {α : Type u} : PyDict α := []

/-- The membership test of a key in a Python dict. -/
def dictContains {α : Type u} (d : PyDict α) (k : String) : Bool :=
  d.any fun kv => decide (kv.1 = k)

/-- Assignment under a key that is not yet present: appended at the end. -/
def dictInsert {α : Type u} (d : PyDict α) (k : String) (v : α) : PyDict α :=
  d ++ [(k, v)]

/-- The keys of a dict, in iteration order. -/
def dictKeys {α : Type u} (d : PyDict α) : List String :=
  d.map fun kv => kv.1

/-- Python `dict.values()`, in iteration order. -/
def dictValues {α : Type u} (d : PyDict α) : List α :=
  d.map fun kv => kv.2

/-- Lookup of a key, first entry wins. -/
def dictLookup {α : Type u} (d : PyDict α) (k : String) : Option α :=
  (d.find? fun kv => decide (kv.1 = k)).map fun kv => kv.2

/-- Python `str.split(sep, maxsplit)` for a one-character separator, on the
character list of the string: at most `maxsplit` splits are performed, after
which the rest of the string stays whole in the final chunk; `acc` holds the
characters of the chunk being built, in reverse. -/
def pySplitAux (sep : Char) : Nat → List Char → List Char → List (List Char)
  | _, acc, [] => [acc.reverse]
  | fuel, acc, c :: cs =>
    if c = sep ∧ 0 < fuel then acc.reverse :: pySplitAux sep (fuel - 1) [] cs
    else pySplitAux sep fuel (c :: acc) cs

/-- Python `str.split(sep, maxsplit)` for a one-character separator. -/
def pySplit (sep : Char) (maxsplit : Nat) (s : String) : List String :=
  (pySplitAux sep maxsplit [] s.data).map String.mk

/-- Python `str.splitlines()` for text whose only line terminator is `"\n"`
(the form `git grep` emits): like splitting on the terminator, except that a
trailing terminator contributes no final empty chunk and the empty string has
no lines at all. -/
def pySplitlines (s : String) : List String :=
  if s = "" then []
  else
    let parts := s.splitOn "\n"
    if parts.getLast? = some "" then parts.dropLast else parts

/-- The command line built by `GitGrepAgent.run_git_grep`:
`["git", "grep", "-n", query]`. The query is passed as the pattern argument,
with no literal-match (`-F`/`--fixed-strings`) flag in front of it. -/
def gitGrepCommand (query : String) : List String :=
  ["git", "grep", "-n", query]

/-- One iteration of the parsing loop in `run_git_grep`: empty lines are
skipped, the line is `split(":", 2)` into at most three parts, and only a
line with exactly three parts contributes a `(file_path, matched_line)`
pair; the line number between the two colons is dropped. -/
def parseGrepLine (line : String) : Option (String × String) :=
  if line = "" then none
  else
    match pySplit ':' 2 line with
    | [file_path, _line_number, matched_line] => some (file_path, matched_line)
    | _ => none

/-- The parsing loop of `run_git_grep` over `result.stdout.splitlines()`,
appending each parsed pair to the `matches` accumulator. -/
def parseGrepOutput (stdout : String) : List (String × String) :=
  (pySplitlines stdout).foldl
    (fun ms line =>
      match parseGrepLine line with
      | some m => ms ++ [m]
      | none => ms)
    []

/-- `GitGrepAgent.run_git_grep`, with the outcome of the `subprocess.run`
call made explicit: if spawning raised, the enclosing `try` returns `[]`;
otherwise the captured stdout is parsed. The function is total, so no
exception ever reaches the caller. -/
def run_git_grep (spawn : Except PyError ProcOutput) : List (String × String) :=
  match spawn with
  | .error _ => []
  | .ok result => parseGrepOutput result.stdout

/-- A top-level statement of a parsed Python module (`ast.parse(...).body`),
keeping exactly what the annotator inspects: which `ast` class the node is an
instance of and, for definitions, its `name` attribute. -/
inductive PyStmt where
  | functionDef (name : String)
  | asyncFunctionDef (name : String)
  | classDef (name : String)
  | otherStmt
  deriving Repr, DecidableEq

/-- `isinstance(n, ast.ClassDef)`. -/
def isClassDef : PyStmt → Bool
  | .classDef _ => true
  | _ => false

/-- `isinstance(n, ast.FunctionDef)`. In Python's `ast` module,
`AsyncFunctionDef` is a sibling of `FunctionDef`, not a subclass, so an
async definition does not satisfy this test. -/
def isFunctionDef : PyStmt → Bool
  | .functionDef _ => true
  | _ => false

/-- The `n.name` attribute read by the comprehension; every node the
`isinstance` filter lets through carries one. -/
def pyStmtName : PyStmt → String
  | .functionDef n => n
  | .asyncFunctionDef n => n
  | .classDef n => n
  | .otherStmt => ""

/-- The comprehension in `GitGrepAgent.get_search`:
`[n.name for n in node.body if isinstance(n, ast.ClassDef) or isinstance(n, ast.FunctionDef)]`. -/
def includedDefsOf (body : List PyStmt) : List String :=
  (body.filter fun n => isClassDef n || isFunctionDef n).map pyStmtName

/-- The `try` block annotating one `.py` candidate in `get_search`: open the
file, `ast.parse` its text, and collect the top-level definition names; the
bare `except` turns any failure (unreadable path, undecodable bytes, syntax
error) into an empty list. The two fallible effects, reading and parsing,
are passed in as `Except`-valued functions. -/
def annotateFile (file_path : String)
    (readFile : String → Except PyError String)
    (astParse : String → Except PyError (List PyStmt)) : List String :=
  match readFile file_path with
  | .error _ => []
  | .ok text =>
    match astParse text with
    | .error _ => []
    | .ok body => includedDefsOf body

/-- Modelled from the spec: `CodeSection` comes from `code_rag_agent.py`,
which is absent from the sources; its fields are the four passed at its
construction site in `get_search` and read back in `next_turn`. The source
stores the float `1.0` in `similarity_score` ("grep doesn't do semantic
scoring"); no claim touches its arithmetic, so the sentinel is carried as
the constant `1`. -/
structure CodeSection where
  search_result : String
  file_path : String
  included_defs : List String
  similarity_score : Nat
  deriving Repr, DecidableEq

/-- Modelled from the spec: `CodeSections` also comes from the absent
`code_rag_agent.py`; `get_search` builds it from a dict of sections plus the
query, and `next_turn` iterates `sections.items()`. -/
structure CodeSections where
  sections : PyDict CodeSection
  search_query : String

/-- `GitGrepAgent.get_search`: run git grep for the query, then walk the
matches; a file path already present in `allSections.sections` is skipped,
a path not ending in `.py` is skipped by the `continue` branch, and any
other path is annotated and inserted once. -/
def get_search (spawn : Except PyError ProcOutput)
    (readFile : String → Except PyError String)
    (astParse : String → Except PyError (List PyStmt))
    (search_query : String) : CodeSections :=
  let grep_results := run_git_grep spawn
  let sections := grep_results.foldl
    (fun secs m =>
      if dictContains secs m.1 then secs
      else if m.1.endsWith ".py" then
        dictInsert secs m.1
          { search_result := m.2
            file_path := m.1
            included_defs := annotateFile m.1 readFile astParse
            similarity_score := 1 }
      else secs)
    dictEmpty
  { sections := sections, search_query := search_query }

/-- The `SearchResult` pydantic model of `PR_agent.py`. The constructor calls
in `next_turn` also pass `similarity_score=...`, which is not a declared
field of the model and is dropped. -/
structure SearchResult where
  query : String
  file_path : String
  content : String
  included_defs : List String
  deriving Repr, DecidableEq

/-- The `SearchResult(query=..., file_path=..., content=..., included_defs=...)`
constructor call of `next_turn`'s aggregation loop. -/
def mkSearchResult (query : String) (result : CodeSection) : SearchResult :=
  { query := query
    file_path := result.file_path
    content := result.search_result
    included_defs := result.included_defs }

/-- One `for file, result in searchResponse.sections.items():` loop of
`next_turn`: each section is inserted into `all_results` under its key
unless that key is already present (`if not file in all_results`), in which
case the later match is dropped. -/
def mergeSections (acc : PyDict SearchResult) (query : String)
    (sections : PyDict CodeSection) : PyDict SearchResult :=
  sections.foldl
    (fun d kv =>
      if dictContains d kv.1 then d
      else dictInsert d kv.1 (mkSearchResult query kv.2))
    acc

/-- The expression `self.git_grep_agent.final_result(...)` in `next_turn`:
`GitGrepAgent` (git_grep_agent.py) declares only `run_git_grep` and
`get_search` and inherits from no base class, so the attribute lookup raises
`AttributeError` before any search can happen. -/
def gitGrepAgentFinalResult : Except PyError CodeSections :=
  .error (.attributeError "GitGrepAgent object has no attribute final_result")

/-- State of `next_turn`'s aggregation loop: how many search-engine
invocations (runs of `run_git_grep`, one per `get_search` call) have
completed, the `all_results` dict, and the exception that escaped the loop,
if any. -/
structure LoopState where
  invocations : Nat
  all_results : PyDict SearchResult
  error : Option PyError
  deriving Repr

/-- The aggregation loop `for query in queries.searches[:10]:` of `next_turn`,
applied to the already-truncated query list. Each iteration calls
`get_search` (one search-engine invocation) and merges its sections, then
evaluates `self.git_grep_agent.final_result`, whose `AttributeError`
propagates and ends the loop. -/
def searchLoop (spawnOf : String → Except PyError ProcOutput)
    (readFile : String → Except PyError String)
    (astParse : String → Except PyError (List PyStmt)) :
    List String → LoopState → LoopState
  | [], st => st
  | query :: rest, st =>
    let resp := get_search (spawnOf query) readFile astParse query
    let merged := mergeSections st.all_results query resp.sections
    match gitGrepAgentFinalResult with
    | .error e =>
      { invocations := st.invocations + 1, all_results := merged, error := some e }
    | .ok resp2 =>
      searchLoop spawnOf readFile astParse rest
        { invocations := st.invocations + 1
          all_results := mergeSections merged query resp2.sections
          error := none }

/-- The aggregation phase of `next_turn`: `all_results = {}` followed by the
loop over `queries.searches[:10]`. -/
def aggregateResults (spawnOf : String → Except PyError ProcOutput)
    (readFile : String → Except PyError String)
    (astParse : String → Except PyError (List PyStmt))
    (searches : List String) : LoopState :=
  searchLoop spawnOf readFile astParse (searches.take 10)
    { invocations := 0, all_results := dictEmpty, error := none }

/-- The pydantic `RelevanceResult` model: a single boolean field. -/
structure RelevanceResult where
  relevant : Bool
  deriving Repr, DecidableEq

/-- The relevance-filter loop of `next_turn`: each aggregated result is
judged by the completion-backed relevance agent, here the fallible `judge`;
on success the result is appended when `relevant` holds, and the `except`
clause turns any exception of the call (service failure, malformed output,
even the `NameError` on the free `patch_content` variable) into skipping
just that one result. -/
def filterResults (judge : SearchResult → Except PyError RelevanceResult) :
    List SearchResult → List SearchResult
  | [] => []
  | result :: rest =>
    match judge result with
    | .ok check =>
      if check.relevant then result :: filterResults judge rest
      else filterResults judge rest
    | .error _ => filterResults judge rest

/-- `PRReviewAgent.prepare_summary`: the chain of `formatted_str +=`
statements, with the `for result in filtered_results` loop rendered as a
fold. The opening patch tag is `<Patch file>` while the closing one is
`</Patch File>`, exactly as in the source. The function reads nothing but
its two arguments. -/
def prepare_summary (patch_content : String)
    (filtered_results : List SearchResult) : String :=
  let s := "" ++ "<Patch file>\n" ++ (patch_content ++ "\n") ++ "</Patch File>\n\n"
  filtered_results.foldl
    (fun acc result =>
      acc ++ ("<" ++ result.file_path ++ ">\n") ++ (result.content ++ "\n")
        ++ ("</" ++ result.file_path ++ ">\n\n"))
    s

/-- The patch block of the bundle, as the spec reads it: the fixed pair of
tags around the patch. Named here so the assembly theorem can state the
output shape. -/
def patchBlock (patch_content : String) : String :=
  "<Patch file>\n" ++ (patch_content ++ "\n") ++ "</Patch File>\n\n"

/-- The per-candidate block of the bundle: the candidate's content wrapped
in an opening and closing tag keyed by its file path. -/
def resultBlock (result : SearchResult) : String :=
  ("<" ++ result.file_path ++ ">\n") ++ (result.content ++ "\n")
    ++ ("</" ++ result.file_path ++ ">\n\n")

/-- Modelled from the spec: the external search tool itself. `git grep`
without `-F` interprets its pattern as a POSIX basic regular expression;
the fragment needed here covers patterns of literal characters and `.`
(which matches any single character), anchored at one position. -/
def breMatchesAt : List Char → List Char → Bool
  | [], _ => true
  | _ :: _, [] => false
  | p :: ps, c :: cs => (p == '.' || p == c) && breMatchesAt ps cs

/-- A basic-regular-expression pattern matches a line when it matches at
some position of the line. -/
def breMatchesSome : List Char → List Char → Bool
  | pat, [] => breMatchesAt pat []
  | pat, c :: cs => breMatchesAt pat (c :: cs) || breMatchesSome pat cs

/-- Whether `git grep -n <pat>` (no `-F`), as the source invokes it, reports
`line` as matching `pat`. -/
def breLineMatches (pat line : String) : Bool :=
  breMatchesSome pat.data line.data

/-- Verbatim-substring matching anchored at one position. -/
def literalMatchesAt : List Char → List Char → Bool
  | [], _ => true
  | _ :: _, [] => false
  | p :: ps, c :: cs => p == c && literalMatchesAt ps cs

/-- Verbatim-substring matching at some position. -/
def literalMatchesSome : List Char → List Char → Bool
  | pat, [] => literalMatchesAt pat []
  | pat, c :: cs => literalMatchesAt pat (c :: cs) || literalMatchesSome pat cs

/-- The matching the claim (and the code's own comment, "find exact
matches") describes: `needle` occurs in `haystack` verbatim. -/
def isLiteralSubstring (needle haystack : String) : Bool :=
  literalMatchesSome needle.data haystack.data

/-- The names the claim about the structural annotator designates: the name
of a top-level synchronous `def` or top-level `class`, and nothing else. -/
def syncDefOrClassName : PyStmt → Option String
  | .functionDef n => some n
  | .classDef n => some n
  | _ => none

/- Helper lemmas about the dict model. -/

/-- A key whose membership test fails is not among the keys. -/
theorem not_mem_dictKeys_of_contains_false {α : Type u} {d : PyDict α} {k : String}
    (h : dictContains d k = false) : k ∉ dictKeys d := by
  intro hk
  have htrue : dictContains d k = true := by
    simp only [dictContains, List.any_eq_true, decide_eq_true_eq]
    simp only [dictKeys, List.mem_map] at hk
    rcases hk with ⟨kv, hkv, hfst⟩
    exact ⟨kv, hkv, hfst⟩
  rw [h] at htrue
  exact Bool.false_ne_true htrue

/-- Inserting a fresh key keeps the keys duplicate-free. -/
theorem dictInsert_keys_nodup {α : Type u} {d : PyDict α} {k : String} (v : α)
    (hd : (dictKeys d).Nodup) (hk : dictContains d k = false) :
    (dictKeys (dictInsert d k v)).Nodup := by
  have hkeys : dictKeys (dictInsert d k v) = dictKeys d ++ [k] := by
    simp [dictKeys, dictInsert]
  rw [hkeys]
  have hiff : (dictKeys d ++ [k]).Nodup ↔ (dictKeys d).Nodup ∧ k ∉ dictKeys d := by
    simp [List.nodup_append]
  exact hiff.mpr ⟨hd, not_mem_dictKeys_of_contains_false hk⟩

/-- A fold whose step preserves duplicate-free keys preserves them overall. -/
theorem foldl_keys_nodup {α : Type u} {β : Type u} (step : PyDict α → β → PyDict α)
    (hstep : ∀ d x, (dictKeys d).Nodup → (dictKeys (step d x)).Nodup)
    (l : List β) : ∀ acc : PyDict α, (dictKeys acc).Nodup →
    (dictKeys (l.foldl step acc)).Nodup := by
  induction l with
  | nil => intro acc h; simpa using h
  | cons x xs ih =>
    intro acc h
    rw [List.foldl_cons]
    exact ih (step acc x) (hstep acc x h)

/-- Appending an entry does not invalidate an existing membership test. -/
theorem dictContains_append_single {α : Type u} (d : PyDict α) (x : String × α)
    (k : String) (h : dictContains d k = true) : dictContains (d ++ [x]) k = true := by
  simp only [dictContains, List.any_append, Bool.or_eq_true]
  exact Or.inl h

/-- Lookup of a present key is unchanged by appending an entry at the end. -/
theorem dictLookup_append_single {α : Type u} (x : String × α) (k : String) :
    ∀ d : PyDict α, dictContains d k = true →
    dictLookup (d ++ [x]) k = dictLookup d k := by
  intro d
  induction d with
  | nil => intro h; simp [dictContains] at h
  | cons kv rest ih =>
    intro h
    by_cases hk : kv.1 = k
    · simp [dictLookup, List.find?, hk]
    · have h' : dictContains rest k = true := by
        simp only [dictContains, List.any_cons, Bool.or_eq_true, decide_eq_true_eq] at h
        rcases h with h | h
        · exact absurd h hk
        · simpa [dictContains] using h
      have := ih h'
      simp only [dictLookup, List.cons_append, List.find?, hk, decide_eq_true_eq,
        if_neg hk] at this ⊢
      simpa [List.find?, hk, dictLookup] using this

/-- The step of `mergeSections` keeps the keys duplicate-free. -/
theorem mergeSections_step_nodup (query : String) (d : PyDict SearchResult)
    (kv : String × CodeSection) (h : (dictKeys d).Nodup) :
    (dictKeys (if dictContains d kv.1 then d
      else dictInsert d kv.1 (mkSearchResult query kv.2))).Nodup := by
  cases hc : dictContains d kv.1 with
  | true => simpa [hc] using h
  | false =>
    rw [if_neg (by simp [hc])]
    exact dictInsert_keys_nodup _ h hc

/-- `mergeSections` keeps the keys of `all_results` duplicate-free. -/
theorem mergeSections_keys_nodup (query : String) (sections : PyDict CodeSection)
    (acc : PyDict SearchResult) (h : (dictKeys acc).Nodup) :
    (dictKeys (mergeSections acc query sections)).Nodup := by
  unfold mergeSections
  exact foldl_keys_nodup _ (fun d kv hd => mergeSections_step_nodup query d kv hd)
    sections acc h

/-- `mergeSections` never rebinds a key that is already present: the earlier
candidate wins and later matches are discarded. -/
theorem mergeSections_lookup_preserved (query : String) (sections : PyDict CodeSection) :
    ∀ (acc : PyDict SearchResult) (k : String), dictContains acc k = true →
    dictLookup (mergeSections acc query sections) k = dictLookup acc k := by
  induction sections with
  | nil => intro acc k _; rfl
  | cons kv rest ih =>
    intro acc k hk
    unfold mergeSections at ih ⊢
    rw [List.foldl_cons]
    cases hc : dictContains acc kv.1 with
    | true =>
      rw [if_pos (by simp [hc])]
      exact ih acc k hk
    | false =>
      rw [if_neg (by simp [hc])]
      rw [ih (dictInsert acc kv.1 (mkSearchResult query kv.2)) k
        (dictContains_append_single acc _ k hk)]
      exact dictLookup_append_single _ k acc hk

/-- The per-match step of `get_search` keeps the section keys duplicate-free. -/
theorem get_search_step_nodup
    (readFile : String → Except PyError String)
    (astParse : String → Except PyError (List PyStmt))
    (secs : PyDict CodeSection) (m : String × String)
    (h : (dictKeys secs).Nodup) :
    (dictKeys (if dictContains secs m.1 then secs
      else if m.1.endsWith ".py" then
        dictInsert secs m.1
          { search_result := m.2
            file_path := m.1
            included_defs := annotateFile m.1 readFile astParse
            similarity_score := 1 }
      else secs)).Nodup := by
  cases hc : dictContains secs m.1 with
  | true => simpa [hc] using h
  | false =>
    rw [if_neg (by simp [hc])]
    by_cases hpy : m.1.endsWith ".py"
    · rw [if_pos hpy]
      exact dictInsert_keys_nodup _ h hc
    · rw [if_neg hpy]
      exact h

/-- The sections produced by `get_search` are keyed uniquely. -/
theorem get_search_keys_nodup (spawn : Except PyError ProcOutput)
    (readFile : String → Except PyError String)
    (astParse : String → Except PyError (List PyStmt)) (search_query : String) :
    (dictKeys (get_search spawn readFile astParse search_query).sections).Nodup := by
  unfold get_search
  exact foldl_keys_nodup _
    (fun d x hd => get_search_step_nodup readFile astParse d x hd)
    (run_git_grep spawn) dictEmpty (by simp [dictEmpty, dictKeys])

/-- Every state the aggregation loop can stop in has duplicate-free keys. -/
theorem searchLoop_keys_nodup (spawnOf : String → Except PyError ProcOutput)
    (readFile : String → Except PyError String)
    (astParse : String → Except PyError (List PyStmt))
    (qs : List String) (st : LoopState) (h : (dictKeys st.all_results).Nodup) :
    (dictKeys (searchLoop spawnOf readFile astParse qs st).all_results).Nodup := by
  cases qs with
  | nil => simpa [searchLoop] using h
  | cons q rest =>
    simp only [searchLoop, gitGrepAgentFinalResult]
    exact mergeSections_keys_nodup q _ st.all_results h

/- Helper lemmas about the relevance filter. -/

/-- Unfolding of the filter loop at a cons cell. -/
theorem filterResults_cons (judge : SearchResult → Except PyError RelevanceResult)
    (a : SearchResult) (rest : List SearchResult) :
    filterResults judge (a :: rest) =
      match judge a with
      | .ok check =>
        if check.relevant then a :: filterResults judge rest
        else filterResults judge rest
      | .error _ => filterResults judge rest := rfl

/-- The filter loop when the head's relevance call succeeds. -/
theorem filterResults_cons_ok (judge : SearchResult → Except PyError RelevanceResult)
    (a : SearchResult) (rest : List SearchResult) (check : RelevanceResult)
    (hja : judge a = .ok check) :
    filterResults judge (a :: rest) =
      if check.relevant then a :: filterResults judge rest
      else filterResults judge rest := by
  rw [filterResults_cons, hja]

/-- The filter loop when the head's relevance call raises. -/
theorem filterResults_cons_error (judge : SearchResult → Except PyError RelevanceResult)
    (a : SearchResult) (rest : List SearchResult) (e : PyError)
    (hja : judge a = .error e) :
    filterResults judge (a :: rest) = filterResults judge rest := by
  rw [filterResults_cons, hja]

/-- Every filtered result was among the judged candidates. -/
theorem filterResults_subset (judge : SearchResult → Except PyError RelevanceResult) :
    ∀ (l : List SearchResult) (r : SearchResult),
    r ∈ filterResults judge l → r ∈ l := by
  intro l
  induction l with
  | nil => intro r h; simp [filterResults] at h
  | cons a rest ih =>
    intro r h
    cases hja : judge a with
    | ok check =>
      rw [filterResults_cons_ok judge a rest check hja] at h
      by_cases hrel : check.relevant
      · rw [if_pos hrel] at h
        rcases List.mem_cons.mp h with rfl | h
        · exact List.mem_cons_self _ _
        · exact List.mem_cons_of_mem a (ih r h)
      · rw [if_neg hrel] at h
        exact List.mem_cons_of_mem a (ih r h)
    | error e =>
      rw [filterResults_cons_error judge a rest e hja] at h
      exact List.mem_cons_of_mem a (ih r h)

/-- A candidate survives the filter exactly when its relevance call succeeds
with a `true` flag. -/
theorem filterResults_mem_iff (judge : SearchResult → Except PyError RelevanceResult) :
    ∀ (l : List SearchResult) (r : SearchResult),
    r ∈ filterResults judge l ↔ r ∈ l ∧ judge r = .ok { relevant := true } := by
  intro l
  induction l with
  | nil => intro r; simp [filterResults]
  | cons a rest ih =>
    intro r
    cases hja : judge a with
    | ok check =>
      rw [filterResults_cons_ok judge a rest check hja]
      by_cases hrel : check.relevant
      · rw [if_pos hrel]
        have hcheck : check = { relevant := true } := by
          cases check
          simp_all
        constructor
        · intro h
          rcases List.mem_cons.mp h with rfl | h
          · exact ⟨List.mem_cons_self _ _, by rw [hja, hcheck]⟩
          · rcases (ih r).mp h with ⟨hmem, hj⟩
            exact ⟨List.mem_cons_of_mem a hmem, hj⟩
        · rintro ⟨hmem, hj⟩
          rcases List.mem_cons.mp hmem with rfl | hmem
          · exact List.mem_cons_self r _
          · exact List.mem_cons_of_mem a ((ih r).mpr ⟨hmem, hj⟩)
      · rw [if_neg hrel]
        rw [ih r]
        constructor
        · rintro ⟨hmem, hj⟩
          exact ⟨List.mem_cons_of_mem a hmem, hj⟩
        · rintro ⟨hmem, hj⟩
          rcases List.mem_cons.mp hmem with rfl | hmem
          · rw [hja] at hj
            have : check = { relevant := true } := by injection hj
            rw [this] at hrel
            simp at hrel
          · exact ⟨hmem, hj⟩
    | error e =>
      rw [filterResults_cons_error judge a rest e hja]
      rw [ih r]
      constructor
      · rintro ⟨hmem, hj⟩
        exact ⟨List.mem_cons_of_mem a hmem, hj⟩
      · rintro ⟨hmem, hj⟩
        rcases List.mem_cons.mp hmem with rfl | hmem
        · rw [hja] at hj
          exact absurd hj (by simp)
        · exact ⟨hmem, hj⟩

/-- A candidate whose relevance call raises is simply removed from the batch:
the filter of the whole list is the filter of the list without it. -/
theorem filterResults_skip_error (judge : SearchResult → Except PyError RelevanceResult)
    (b : SearchResult) (e : PyError) (hb : judge b = .error e) :
    ∀ l₁ l₂ : List SearchResult,
    filterResults judge (l₁ ++ b :: l₂) = filterResults judge (l₁ ++ l₂) := by
  intro l₁
  induction l₁ with
  | nil =>
    intro l₂
    simp only [List.nil_append]
    exact filterResults_cons_error judge b l₂ e hb
  | cons a rest ih =>
    intro l₂
    simp only [List.cons_append]
    rw [filterResults_cons, filterResults_cons, ih l₂]

/-- C1: for every patch (reaching the pipeline as arbitrary per-query search
outcomes) and every list of derived queries, the candidate aggregation never
yields two Candidates with the same file path: the `all_results` dict built
by `next_turn` has duplicate-free keys, as does the section dict built by
`get_search`, and a later match for a path that is already bound leaves the
stored Candidate untouched (first match wins). -/
theorem candidate_aggregation_unique_paths
    (spawnOf : String → Except PyError ProcOutput)
    (readFile : String → Except PyError String)
    (astParse : String → Except PyError (List PyStmt))
    (searches : List String)
    (spawn : Except PyError ProcOutput) (q : String)
    (d : PyDict SearchResult) (q2 : String) (secs : PyDict CodeSection)
    (k : String) :
    (dictKeys (aggregateResults spawnOf readFile astParse searches).all_results).Nodup
    ∧ (dictKeys (get_search spawn readFile astParse q).sections).Nodup
    ∧ (dictContains d k = true →
        dictLookup (mergeSections d q2 secs) k = dictLookup d k) := by
  refine ⟨?_, get_search_keys_nodup spawn readFile astParse q, ?_⟩
  · unfold aggregateResults
    exact searchLoop_keys_nodup spawnOf readFile astParse (searches.take 10) _
      (by simp [dictEmpty, dictKeys])
  · intro hk
    exact mergeSections_lookup_preserved q2 secs d k hk

/-- Witness for C1 at concrete inputs: a grep response in which `a.py`
matches twice and two queries, and an `all_results` dict that already binds
`a.py` when a later section for `a.py` arrives. -/
theorem candidate_aggregation_unique_paths_witness :
    (dictKeys (aggregateResults
      (fun _ => Except.ok ⟨"a.py:1:x\nb.py:2:y\na.py:3:z", "", 0⟩)
      (fun _ => Except.error (PyError.ioError "no such file"))
      (fun _ => Except.ok [])
      ["q1", "q2"]).all_results).Nodup
    ∧ (dictKeys (get_search (Except.ok ⟨"a.py:1:x\na.py:2:w", "", 0⟩)
        (fun _ => Except.error (PyError.ioError "no such file"))
        (fun _ => Except.ok []) "q").sections).Nodup
    ∧ dictLookup (mergeSections [("a.py", ⟨"q0", "a.py", "x", []⟩)] "q9"
        [("a.py", ⟨"z", "a.py", [], 1⟩)]) "a.py"
      = dictLookup [("a.py", (⟨"q0", "a.py", "x", []⟩ : SearchResult))] "a.py" := by
  have h := candidate_aggregation_unique_paths
    (fun _ => Except.ok ⟨"a.py:1:x\nb.py:2:y\na.py:3:z", "", 0⟩)
    (fun _ => Except.error (PyError.ioError "no such file"))
    (fun _ => Except.ok [])
    ["q1", "q2"]
    (Except.ok ⟨"a.py:1:x\na.py:2:w", "", 0⟩) "q"
    [("a.py", ⟨"q0", "a.py", "x", []⟩)] "q9"
    [("a.py", ⟨"z", "a.py", [], 1⟩)] "a.py"
  exact ⟨h.1, h.2.1, h.2.2 (by decide)⟩

/-- C2: the relevance filter's output file-path set is a subset of the
aggregated candidate mapping's file-path set, for every candidate mapping and
every behaviour of the judging completion call (including failing calls): a
path in the filtered output already labels a value of the mapping. -/
theorem filter_output_paths_subset
    (judge : SearchResult → Except PyError RelevanceResult)
    (all_results : PyDict SearchResult) (p : String)
    (hp : p ∈ (filterResults judge (dictValues all_results)).map SearchResult.file_path) :
    p ∈ (dictValues all_results).map SearchResult.file_path := by
  rcases List.mem_map.mp hp with ⟨r, hr, rfl⟩
  exact List.mem_map.mpr
    ⟨r, filterResults_subset judge (dictValues all_results) r hr, rfl⟩

/-- Witness for C2: a two-candidate mapping under a judge that accepts
everything; the output path is among the mapping's paths. -/
theorem filter_output_paths_subset_witness :
    "a.py" ∈ (dictValues [("a.py", (⟨"q", "a.py", "x", []⟩ : SearchResult)),
      ("b.py", ⟨"q", "b.py", "y", []⟩)]).map SearchResult.file_path :=
  filter_output_paths_subset (fun _ => Except.ok ⟨true⟩)
    [("a.py", ⟨"q", "a.py", "x", []⟩), ("b.py", ⟨"q", "b.py", "y", []⟩)]
    "a.py" (by decide)

/-- C3: the claim that the pipeline performs exactly `min(n, 10)`
search-engine invocations fails on the code: `next_turn`'s loop calls
`self.git_grep_agent.final_result`, an attribute `GitGrepAgent` does not
define, so the first iteration raises `AttributeError` after a single
`run_git_grep` invocation. With two derived queries the loop performs one
invocation, not `min 2 10 = 2`. -/
theorem search_invocation_count_mismatch :
    (aggregateResults (fun _ => Except.ok ⟨"", "", 1⟩)
      (fun _ => Except.error (PyError.ioError "unused"))
      (fun _ => Except.ok []) ["alpha", "beta"]).invocations = 1
    ∧ (aggregateResults (fun _ => Except.ok ⟨"", "", 1⟩)
        (fun _ => Except.error (PyError.ioError "unused"))
        (fun _ => Except.ok []) ["alpha", "beta"]).error
      = some (PyError.attributeError "GitGrepAgent object has no attribute final_result")
    ∧ min (["alpha", "beta"] : List String).length 10 = 2 := by
  exact ⟨rfl, rfl, rfl⟩

/-- C4: a failure of the per-candidate relevance call excludes exactly that
candidate: filtering a batch with a failing candidate equals filtering the
batch without it, and a candidate is in the filtered output iff it was in
the batch and its call succeeded with a true relevance flag. -/
theorem relevance_failure_excludes_only_failed
    (judge : SearchResult → Except PyError RelevanceResult)
    (l₁ l₂ : List SearchResult) (b r : SearchResult) (e : PyError)
    (hb : judge b = .error e) :
    filterResults judge (l₁ ++ b :: l₂) = filterResults judge (l₁ ++ l₂)
    ∧ (r ∈ filterResults judge (l₁ ++ l₂) ↔
        r ∈ l₁ ++ l₂ ∧ judge r = .ok { relevant := true }) :=
  ⟨filterResults_skip_error judge b e hb l₁ l₂,
    filterResults_mem_iff judge (l₁ ++ l₂) r⟩

/-- Witness for C4: a judge that fails on query `bad`, accepts query `ok`
and rejects query `no`; the failing middle candidate is dropped, the others
are still judged. -/
theorem relevance_failure_excludes_only_failed_witness :
    filterResults
      ((fun r => if r.query = "bad" then Except.error (PyError.serviceError "boom")
        else if r.query = "ok" then Except.ok ⟨true⟩ else Except.ok ⟨false⟩) :
        SearchResult → Except PyError RelevanceResult)
      ([⟨"ok", "a.py", "x", []⟩] ++ (⟨"bad", "b.py", "y", []⟩ : SearchResult)
        :: [⟨"no", "c.py", "z", []⟩])
    = filterResults
      ((fun r => if r.query = "bad" then Except.error (PyError.serviceError "boom")
        else if r.query = "ok" then Except.ok ⟨true⟩ else Except.ok ⟨false⟩) :
        SearchResult → Except PyError RelevanceResult)
      ([⟨"ok", "a.py", "x", []⟩] ++ [⟨"no", "c.py", "z", []⟩])
    ∧ ((⟨"ok", "a.py", "x", []⟩ : SearchResult)
        ∈ filterResults
          ((fun r => if r.query = "bad" then Except.error (PyError.serviceError "boom")
            else if r.query = "ok" then Except.ok ⟨true⟩ else Except.ok ⟨false⟩) :
            SearchResult → Except PyError RelevanceResult)
          ([⟨"ok", "a.py", "x", []⟩] ++ [⟨"no", "c.py", "z", []⟩]) ↔
        (⟨"ok", "a.py", "x", []⟩ : SearchResult) ∈
            [⟨"ok", "a.py", "x", []⟩] ++ [⟨"no", "c.py", "z", []⟩]
          ∧ ((fun r => if r.query = "bad" then Except.error (PyError.serviceError "boom")
              else if r.query = "ok" then Except.ok ⟨true⟩ else Except.ok ⟨false⟩) :
              SearchResult → Except PyError RelevanceResult)
              ⟨"ok", "a.py", "x", []⟩ = Except.ok { relevant := true }) :=
  relevance_failure_excludes_only_failed
    ((fun r => if r.query = "bad" then Except.error (PyError.serviceError "boom")
      else if r.query = "ok" then Except.ok ⟨true⟩ else Except.ok ⟨false⟩) :
      SearchResult → Except PyError RelevanceResult)
    [⟨"ok", "a.py", "x", []⟩] [⟨"no", "c.py", "z", []⟩]
    ⟨"bad", "b.py", "y", []⟩ ⟨"ok", "a.py", "x", []⟩
    (PyError.serviceError "boom") rfl

/-- C5: the claim that the search treats the query as a literal substring
fails on the code. `run_git_grep` builds `["git", "grep", "-n", query]` with
no `-F`/`--fixed-strings` flag, so the tool reads the query as a basic
regular expression: the query `a.c` matches the line `abc`, which does not
contain `a.c` verbatim — contradicting both the claim and the code's own
comment ("find exact matches in the codebase"). -/
theorem grep_query_interpreted_as_pattern :
    gitGrepCommand "a.c" = ["git", "grep", "-n", "a.c"]
    ∧ (gitGrepCommand "a.c").contains "-F" = false
    ∧ breLineMatches "a.c" "abc" = true
    ∧ isLiteralSubstring "a.c" "abc" = false := by
  exact ⟨rfl, by decide, by decide, by decide⟩

/-- C6: the line search never raises to its caller: when the subprocess call
fails the `except` branch yields `[]`, and when it runs but reports no match
(empty stdout, as `git grep` emits on zero matches) the parsing loop also
yields `[]`. Totality of `run_git_grep` is the no-raise guarantee. -/
theorem line_search_never_raises
    (e : PyError) (stderr : String) (code : Int) (out : ProcOutput)
    (hout : out.stdout = "") :
    run_git_grep (.error e) = []
    ∧ run_git_grep (.ok ⟨"", stderr, code⟩) = []
    ∧ run_git_grep (.ok out) = [] := by
  refine ⟨rfl, rfl, ?_⟩
  show parseGrepOutput out.stdout = []
  rw [hout]
  rfl

/-- Witness for C6 at a concrete failing spawn and a concrete zero-match run. -/
theorem line_search_never_raises_witness :
    run_git_grep (.error (PyError.ioError "git: not found")) = []
    ∧ run_git_grep (.ok ⟨"", "fatal: not a git repository", 128⟩) = []
    ∧ run_git_grep (.ok ⟨"", "", 1⟩) = [] :=
  line_search_never_raises (PyError.ioError "git: not found")
    "fatal: not a git repository" 128 ⟨"", "", 1⟩ rfl

/-- C7: structural annotation never aborts the pipeline: whatever file path
it is handed, if the file cannot be read (missing path, binary bytes) or
cannot be parsed (invalid syntax) the symbol list degrades to `[]`; totality
of `annotateFile` is the no-raise guarantee. -/
theorem annotator_degrades_to_empty
    (file_path : String)
    (readFile : String → Except PyError String)
    (astParse : String → Except PyError (List PyStmt))
    (e : PyError) (text : String) :
    (readFile file_path = .error e →
      annotateFile file_path readFile astParse = [])
    ∧ (readFile file_path = .ok text → astParse text = .error e →
        annotateFile file_path readFile astParse = []) := by
  constructor
  · intro h
    unfold annotateFile
    rw [h]
  · intro hr hp
    unfold annotateFile
    rw [hr]
    show (match astParse text with
      | Except.error _ => []
      | Except.ok body => includedDefsOf body) = []
    rw [hp]

/-- Witness for C7: a non-existent path (read fails) and a syntactically
invalid file (parse fails) both annotate to the empty list. -/
theorem annotator_degrades_to_empty_witness :
    annotateFile "missing.py"
      (fun _ => Except.error (PyError.ioError "No such file or directory"))
      (fun _ => Except.ok []) = []
    ∧ annotateFile "bad.py" (fun _ => Except.ok "def (:")
      (fun _ => Except.error (PyError.syntaxError "invalid syntax")) = [] :=
  ⟨(annotator_degrades_to_empty "missing.py"
      (fun _ => Except.error (PyError.ioError "No such file or directory"))
      (fun _ => Except.ok []) (PyError.ioError "No such file or directory")
      "unused").1 rfl,
    (annotator_degrades_to_empty "bad.py" (fun _ => Except.ok "def (:")
      (fun _ => Except.error (PyError.syntaxError "invalid syntax"))
      (PyError.syntaxError "invalid syntax") "def (:").2 rfl rfl⟩

/-- C10: for every parsed module body, the attached symbol list is exactly
the names of the top-level synchronous function definitions and top-level
class definitions, in source order; a top-level async function definition
contributes nothing. -/
theorem annotator_symbols_sync_defs_and_classes (body : List PyStmt) :
    includedDefsOf body = body.filterMap syncDefOrClassName
    ∧ (∀ n : String,
        includedDefsOf (PyStmt.asyncFunctionDef n :: body) = includedDefsOf body) := by
  constructor
  · induction body with
    | nil => rfl
    | cons s rest ih =>
      cases s with
      | functionDef n =>
        simp [includedDefsOf, isClassDef, isFunctionDef, syncDefOrClassName,
          pyStmtName] at ih ⊢
        exact ih
      | asyncFunctionDef n =>
        simp [includedDefsOf, isClassDef, isFunctionDef, syncDefOrClassName] at ih ⊢
        exact ih
      | classDef n =>
        simp [includedDefsOf, isClassDef, isFunctionDef, syncDefOrClassName,
          pyStmtName] at ih ⊢
        exact ih
      | otherStmt =>
        simp [includedDefsOf, isClassDef, isFunctionDef, syncDefOrClassName] at ih ⊢
        exact ih
  · intro n
    simp [includedDefsOf, isClassDef, isFunctionDef]

/- Helper lemmas about the Python split used by the grep-output parser. -/

/-- `String.mk` undoes `String.data`. -/
theorem string_mk_data (s : String) : String.mk s.data = s := rfl

/-- Unfolding of the split at the end of the input. -/
theorem pySplitAux_nil (sep : Char) (fuel : Nat) (acc : List Char) :
    pySplitAux sep fuel acc [] = [acc.reverse] := rfl

/-- Unfolding of the split at one more character. -/
theorem pySplitAux_cons (sep : Char) (fuel : Nat) (acc : List Char)
    (c : Char) (cs : List Char) :
    pySplitAux sep fuel acc (c :: cs) =
      if c = sep ∧ 0 < fuel then acc.reverse :: pySplitAux sep (fuel - 1) [] cs
      else pySplitAux sep fuel (c :: acc) cs := rfl

/-- With the split budget exhausted, the rest of the input stays whole. -/
theorem pySplitAux_zero (sep : Char) (l : List Char) : ∀ acc : List Char,
    pySplitAux sep 0 acc l = [acc.reverse ++ l] := by
  induction l with
  | nil => intro acc; simp [pySplitAux_nil]
  | cons c cs ih =>
    intro acc
    rw [pySplitAux_cons, if_neg (by simp)]
    rw [ih (c :: acc)]
    simp

/-- With budget left, splitting consumes everything up to the first
separator as one chunk and continues after it with one split fewer. -/
theorem pySplitAux_split (sep : Char) (fuel : Nat) (hf : 0 < fuel) :
    ∀ (xs acc rest : List Char), sep ∉ xs →
    pySplitAux sep fuel acc (xs ++ sep :: rest)
      = (acc.reverse ++ xs) :: pySplitAux sep (fuel - 1) [] rest := by
  intro xs
  induction xs with
  | nil =>
    intro acc rest _
    simp only [List.nil_append]
    rw [pySplitAux_cons, if_pos ⟨rfl, hf⟩]
    simp
  | cons x xs ih =>
    intro acc rest h
    have hx : ¬ x = sep := by
      intro hxx
      exact h (hxx ▸ List.mem_cons_self x xs)
    simp only [List.cons_append]
    rw [pySplitAux_cons, if_neg (by intro hcontr; exact hx hcontr.1)]
    rw [ih (x :: acc) rest (fun hm => h (List.mem_cons_of_mem x hm))]
    simp [List.append_assoc]

/-- The character list of `path:line:text` concatenations. -/
theorem data_two_colons (a b c : String) :
    (a ++ ":" ++ b ++ ":" ++ c).data = a.data ++ ':' :: (b.data ++ ':' :: c.data) := by
  have hcolon : (":" : String).data = [':'] := rfl
  simp [String.data_append, hcolon]

/-- `split(":", 2)` on a line with colon-free path and line-number fields
recovers exactly those fields, leaving all later colons inside the text. -/
theorem pySplit_colon_two (a b c : String) (ha : ':' ∉ a.data) (hb : ':' ∉ b.data) :
    pySplit ':' 2 (a ++ ":" ++ b ++ ":" ++ c) = [a, b, c] := by
  unfold pySplit
  rw [data_two_colons]
  rw [pySplitAux_split ':' 2 (by omega) a.data [] _ ha]
  have h21 : (2 : Nat) - 1 = 1 := rfl
  rw [h21]
  rw [pySplitAux_split ':' 1 (by omega) b.data [] _ hb]
  have h10 : (1 : Nat) - 1 = 0 := rfl
  rw [h10]
  rw [pySplitAux_zero ':' c.data []]
  simp [string_mk_data]

/-- The split produces at most one chunk more than there are separators. -/
theorem pySplitAux_length_le (sep : Char) (l : List Char) :
    ∀ (fuel : Nat) (acc : List Char),
    (pySplitAux sep fuel acc l).length ≤ l.count sep + 1 := by
  induction l with
  | nil => intro fuel acc; simp [pySplitAux_nil]
  | cons c cs ih =>
    intro fuel acc
    rw [pySplitAux_cons]
    by_cases hc : c = sep ∧ 0 < fuel
    · rw [if_pos hc]
      have hrec := ih (fuel - 1) []
      have hcount : (c :: cs).count sep = cs.count sep + 1 := by
        simp [List.count_cons, hc.1]
      rw [hcount, List.length_cons]
      omega
    · rw [if_neg hc]
      have hrec := ih fuel (c :: acc)
      have hcount : cs.count sep ≤ (c :: cs).count sep := by
        rw [List.count_cons]
        exact Nat.le_add_right _ _
      omega

/-- A line with fewer than two colons contributes no pair. -/
theorem parseGrepLine_none_of_few_colons (s : String)
    (hs : s.data.count ':' < 2) : parseGrepLine s = none := by
  unfold parseGrepLine
  by_cases h0 : s = ""
  · rw [if_pos h0]
  · rw [if_neg h0]
    have hlen : (pySplit ':' 2 s).length ≤ 2 := by
      have h := pySplitAux_length_le ':' s.data 2 []
      unfold pySplit
      rw [List.length_map]
      omega
    cases hp : pySplit ':' 2 s with
    | nil => rfl
    | cons x tl =>
      cases tl with
      | nil => rfl
      | cons y tl2 =>
        cases tl2 with
        | nil => rfl
        | cons z tl3 =>
          exfalso
          rw [hp] at hlen
          simp only [List.length_cons] at hlen
          omega

/-- A well-formed line is split on its first two colons only. -/
theorem parseGrepLine_splits (a b c : String)
    (ha : ':' ∉ a.data) (hb : ':' ∉ b.data) :
    parseGrepLine (a ++ ":" ++ b ++ ":" ++ c) = some (a, c) := by
  have hne : ¬ (a ++ ":" ++ b ++ ":" ++ c) = "" := by
    intro h
    have hd := congrArg String.data h
    rw [data_two_colons] at hd
    simp at hd
  unfold parseGrepLine
  rw [if_neg hne, pySplit_colon_two a b c ha hb]

/-- C9: the grep-output parser splits each `path:line_number:text` line on
the first two colons only, returning the path and the whole remaining text
(which may itself contain colons); an empty line, or one with fewer than
two colons, yields no pair. -/
theorem grep_output_line_parsing (a b c s : String)
    (ha : ':' ∉ a.data) (hb : ':' ∉ b.data) (hs : s.data.count ':' < 2) :
    parseGrepLine (a ++ ":" ++ b ++ ":" ++ c) = some (a, c)
    ∧ parseGrepLine s = none
    ∧ parseGrepLine "" = none :=
  ⟨parseGrepLine_splits a b c ha hb,
    parseGrepLine_none_of_few_colons s hs, rfl⟩

/-- Witness for C9: a matched line whose text itself contains a colon, a
line with too few colons, and the empty line. -/
theorem grep_output_line_parsing_witness :
    parseGrepLine ("src/util.py" ++ ":" ++ "42" ++ ":" ++ "x: int = 1")
      = some ("src/util.py", "x: int = 1")
    ∧ parseGrepLine "no colons here" = none
    ∧ parseGrepLine "" = none :=
  grep_output_line_parsing "src/util.py" "42" "x: int = 1" "no colons here"
    (by decide) (by decide) (by decide)

/- Helper lemmas about string folding for the context assembler. -/

/-- Folding append over strings is appending the join. -/
theorem foldl_string_append (l : List String) : ∀ init : String,
    l.foldl (fun acc s => acc ++ s) init = init ++ String.join l := by
  induction l with
  | nil => intro init; simp [String.join, String.append_empty]
  | cons a l ih =>
    intro init
    rw [List.foldl_cons, ih (init ++ a)]
    have hj : String.join (a :: l) = a ++ String.join l := by
      show List.foldl (fun r s => r ++ s) "" (a :: l) = a ++ String.join l
      rw [List.foldl_cons, ih ("" ++ a), String.empty_append]
    rw [hj, String.append_assoc]

/-- `String.join` peels one string off the front. -/
theorem string_join_cons (s : String) (l : List String) :
    String.join (s :: l) = s ++ String.join l := by
  show List.foldl (fun r t => r ++ t) "" (s :: l) = s ++ String.join l
  rw [List.foldl_cons, foldl_string_append l ("" ++ s), String.empty_append]

/-- Folding append of rendered blocks is appending the joined rendering. -/
theorem foldl_map_append (f : SearchResult → String) (l : List SearchResult) :
    ∀ init : String,
    l.foldl (fun acc r => acc ++ f r) init = init ++ String.join (l.map f) := by
  induction l with
  | nil => intro init; simp [String.join, String.append_empty]
  | cons a l ih =>
    intro init
    rw [List.foldl_cons, ih (init ++ f a), List.map_cons, string_join_cons,
      String.append_assoc]

/-- C8 (amended): context assembly is the pure function of the patch text and
the filtered list that emits the patch between the fixed tags `<Patch file>`
and `</Patch File>` (whose names differ in letter case, so the pair is not
matching), followed by each filtered entry wrapped in matching tags keyed by
its file path, in list (mapping-iteration) order; being an equation between
pure values, identical inputs give byte-identical output. -/
theorem prepare_summary_structure (p : String) (l : List SearchResult) :
    prepare_summary p l = patchBlock p ++ String.join (l.map resultBlock) := by
  simp only [prepare_summary]
  have hstep : (fun (acc : String) (result : SearchResult) =>
      acc ++ ("<" ++ result.file_path ++ ">\n") ++ (result.content ++ "\n")
        ++ ("</" ++ result.file_path ++ ">\n\n"))
      = fun (acc : String) (result : SearchResult) => acc ++ resultBlock result := by
    funext acc r
    simp [resultBlock, String.append_assoc]
  rw [hstep, foldl_map_append resultBlock l _, String.empty_append]
  rfl

/-- C8 counterexample: the patch block is not wrapped in one matching
delimiter pair. On the empty patch and empty candidate list, no single tag
`t` reproduces the assembler's output, because the opening tag reads
`Patch file` while the closing tag reads `Patch File`. -/
theorem prepare_summary_tags_not_matching :
    ¬ ∃ t : String, prepare_summary "" []
      = "<" ++ t ++ ">\n" ++ "" ++ "\n" ++ "</" ++ t ++ ">\n\n" := by
  rintro ⟨t, h⟩
  have h0 : prepare_summary "" [] = "<Patch file>\n\n</Patch File>\n\n" := rfl
  rw [h0] at h
  have hd := congrArg String.data h
  have hlhs : ("<Patch file>\n\n</Patch File>\n\n" : String).data
      = '<' :: ("Patch file".data ++ ('>' :: '\n' :: '\n' :: '<' :: '/' ::
          ("Patch File".data ++ ['>', '\n', '\n']))) := rfl
  have d1 : ("<" : String).data = ['<'] := rfl
  have d2 : (">\n" : String).data = ['>', '\n'] := rfl
  have d3 : ("" : String).data = ([] : List Char) := rfl
  have d4 : ("\n" : String).data = ['\n'] := rfl
  have d5 : ("</" : String).data = ['<', '/'] := rfl
  have d6 : (">\n\n" : String).data = ['>', '\n', '\n'] := rfl
  have hrhs : ("<" ++ t ++ ">\n" ++ "" ++ "\n" ++ "</" ++ t ++ ">\n\n").data
      = '<' :: (t.data ++ ('>' :: '\n' :: '\n' :: '<' :: '/' ::
          (t.data ++ ['>', '\n', '\n']))) := by
    simp [String.data_append, d1, d2, d3, d4, d5, d6]
  rw [hlhs, hrhs] at hd
  simp only [List.cons.injEq, true_and] at hd
  have hlen := congrArg List.length hd
  simp only [List.length_append, List.length_cons, List.length_nil] at hlen
  have hlt : t.data.length = 10 := by omega
  have hinj := List.append_inj hd (by simp [hlt])
  rcases hinj with ⟨heq, htl⟩
  simp only [List.cons.injEq, true_and] at htl
  rw [← heq] at htl
  exact absurd htl (by decide)
